import Mathlib

/-!
Shared page helpers of `src/UI/app.js`.

A shallow embedding of the helper module and the properties its specification states.

* Strings are Lean strings; the browser built-ins the module calls
  (`localStorage`, `document.getElementById`, `Object.assign`, `String.prototype.replaceAll`,
  `Response.ok`) are modelled next to the functions that use them.
* `JSON.parse` and `JSON.stringify` are supplied by a `Host`; every theorem holds for every host,
  and `browser` is a reference host used to evaluate concrete requests.
* The answer of the network to the one request a call issues is an input of the call
  (`FetchOutcome`); the request itself is appended to `Browser.requests`.
-/

namespace App

/-! ## Values -/

/-- A JavaScript number, an IEEE 754 double: `finite neg m e` is `± m * 2 ^ e`. -/
inductive JsNumber where
  | nan
  | infinity (negative : Bool)
  | finite (negative : Bool) (mantissa : Nat) (exponent : Int)
deriving DecidableEq, Repr

/-- The number with the value of a natural number (exact below `2 ^ 53`). -/
def JsNumber.ofNat (n : Nat) : JsNumber := .finite false n 0

/-- ToBoolean on numbers: `0`, `-0` and `NaN` are falsy. -/
def JsNumber.truthy : JsNumber → Bool
  | .nan => false
  | .infinity _ => true
  | .finite _ m _ => m != 0

/-- A JavaScript value that is never mutated after it is built (what `JSON.parse` returns, and
the object literals the module only reads): objects and arrays are held by value. The
properties of an object are in insertion order. -/
inductive JsValue where
  | undefined
  | null
  | bool (b : Bool)
  | number (n : JsNumber)
  | string (s : String)
  | array (items : List JsValue)
  | object (props : List (String × JsValue))
deriving Repr

/-- ToBoolean: `undefined`, `null`, `false`, `0`, `NaN` and `""` are falsy. -/
def JsValue.truthy : JsValue → Bool
  | .undefined => false
  | .null => false
  | .bool b => b
  | .number n => n.truthy
  | .string s => s != ""
  | .array _ => true
  | .object _ => true

/-- Property read `v.key` for a key that no prototype and no built-in property defines (such as
`error`): the own property of an object, `undefined` everywhere else. -/
def JsValue.get (v : JsValue) (key : String) : JsValue :=
  match v with
  | .object props => (props.lookup key).getD .undefined
  | _ => .undefined

/-- The operator `a && b`: `a` when `a` is falsy, otherwise `b`. -/
def JsValue.and (a b : JsValue) : JsValue := if a.truthy then b else a

/-- A value as a caller holds it: a primitive, or a reference to an object of the heap. -/
inductive Val where
  | undefined
  | null
  | bool (b : Bool)
  | number (n : JsNumber)
  | string (s : String)
  | ref (addr : Nat)
deriving DecidableEq, Repr

/-- ToBoolean on caller values; every object is truthy. -/
def Val.truthy : Val → Bool
  | .undefined => false
  | .null => false
  | .bool b => b
  | .number n => n.truthy
  | .string s => s != ""
  | .ref _ => true

/-- The own enumerable properties of a heap object, in insertion order. -/
abbrev Props := List (String × Val)

/-- The objects allocated so far; the address of an object is its index. -/
abbrev Heap := List Props

/-- The properties of the object at an address (none for an address not allocated). -/
def Heap.props (h : Heap) (addr : Nat) : Props := (h.get? addr).getD []

/-- The number a list of decimal digits names. -/
def digitsValue (ds : List Char) : Nat := ds.foldl (fun n c => 10 * n + (c.toNat - 48)) 0

/-- Whether a key is an array index, `0` to `2 ^ 32 - 2` in canonical decimal form. -/
def arrayIndex (k : String) : Option Nat :=
  if k.data ≠ [] ∧ k.data.all Char.isDigit ∧ (k.data.length = 1 ∨ k.data.head? ≠ some '0')
      ∧ digitsValue k.data < 2 ^ 32 - 1 then some (digitsValue k.data)
  else none

/-- A new array-index key goes before the first key that is a larger index or no index. -/
def insertIndex {α : Type} (i : Nat) (k : String) (v : α) :
    List (String × α) → List (String × α)
  | [] => [(k, v)]
  | (k', v') :: rest =>
    match arrayIndex k' with
    | some j => if i < j then (k, v) :: (k', v') :: rest else (k', v') :: insertIndex i k v rest
    | none => (k, v) :: (k', v') :: rest

/-- The first property with the key takes the new value, where it stands. -/
def replaceProp {α : Type} (k : String) (v : α) : List (String × α) → List (String × α)
  | [] => []
  | (k', v') :: rest => if k' = k then (k', v) :: rest else (k', v') :: replaceProp k v rest

/-- A write of a data property on an ordinary object, in the order in which the properties of
an object are enumerated: an existing key takes the new value where it stands; a new key that
is an array index goes among the array indices, which come first in ascending order; any other
new key goes last. -/
def placeProp {α : Type} (props : List (String × α)) (k : String) (v : α) :
    List (String × α) :=
  if props.any (fun kv => kv.1 = k) then replaceProp k v props
  else match arrayIndex k with
    | some i => insertIndex i k v props
    | none => props ++ [(k, v)]

/-- `[[Set]]` of a data property on an object of the heap. -/
def setProp (props : Props) (k : String) (v : Val) : Props := placeProp props k v

/-- The UTF-16 code units of a character, each as a string: the character itself in the Basic
Multilingual Plane, two surrogates otherwise. A surrogate on its own is no character of a Lean
string and is written U+FFFD. -/
def codeUnits (c : Char) : List String :=
  if c.toNat < 0x10000 then [String.singleton c]
  else [String.singleton (Char.ofNat 0xFFFD), String.singleton (Char.ofNat 0xFFFD)]

/-- The code units of a string, keyed by their index from `i` on: the own enumerable
properties of a string wrapper. -/
def indexProps : Nat → List String → Props
  | _, [] => []
  | i, u :: us => (toString i, .string u) :: indexProps (i + 1) us

/-- The own enumerable properties `Object.assign` copies from a source: those of the object
a reference points to, the code units of a string, none for any other primitive. -/
def ownProps (h : Heap) : Val → Props
  | .ref a => h.props a
  | .string s => indexProps 0 (s.data.flatMap codeUnits)
  | _ => []

/-- Property read `o.key` on the object at `addr`, for a key no prototype defines. -/
def getProp (h : Heap) (addr : Nat) (key : String) : Val :=
  ((h.props addr).lookup key).getD .undefined

/-! ## Browser state -/

/-- The two properties of an element that the module writes. -/
structure Element where
  className : String
  textContent : String
deriving DecidableEq, Repr

/-- An exception object, with its `message`. -/
structure JsError where
  message : String
deriving DecidableEq, Repr

/-- A call of `fetch`: the URL and, when a second argument is passed, the address of the
options object. -/
structure Request where
  url : String
  init : Option Nat
deriving DecidableEq, Repr

/-- What the network answers to a request: `fetch` rejects, or it resolves with a response
whose status is `status` and whose `text()` resolves with the body or rejects. -/
inductive FetchOutcome where
  | rejected (e : JsError)
  | resolved (status : Nat) (body : Except JsError String)

/-- The part of the page the module reads and writes. -/
structure Browser where
  /-- The value of `window.location.origin`. -/
  origin : String
  /-- The entries of `localStorage`. -/
  localStorage : List (String × String)
  /-- The elements of the document that carry an id, in document order. -/
  document : List (String × Element)
  /-- The objects of the caller and of the module. -/
  heap : Heap
  /-- The calls of `fetch` issued so far, oldest first. -/
  requests : List Request

/-- `localStorage.getItem(key)`: the stored string, `none` for JavaScript `null`. -/
def Browser.getItem (b : Browser) (key : String) : Option String := b.localStorage.lookup key

/-- The entries after `setItem(key, value)`. -/
def setEntry : List (String × String) → String → String → List (String × String)
  | [], k, v => [(k, v)]
  | (k', v') :: rest, k, v => if k' = k then (k', v) :: rest else (k', v') :: setEntry rest k v

/-- `localStorage.setItem(key, value)`. -/
def Browser.setItem (b : Browser) (key value : String) : Browser :=
  { b with localStorage := setEntry b.localStorage key value }

/-- `document.getElementById(id)`: the first element with that id, `none` for `null`. -/
def Browser.getElementById (b : Browser) (id : String) : Option Element := b.document.lookup id

/-- The elements after a write to the first element with the given id. -/
def updateElement (f : Element → Element) : List (String × Element) → String →
    List (String × Element)
  | [], _ => []
  | (i, el) :: rest, id =>
    if i = id then (i, f el) :: rest else (i, el) :: updateElement f rest id

/-- A write to a property of the element `getElementById(id)` returned. -/
def Browser.writeElement (b : Browser) (id : String) (f : Element → Element) : Browser :=
  { b with document := updateElement f b.document id }

/-- An object literal: a fresh object with the given properties, and its address. -/
def Browser.alloc (b : Browser) (props : Props) : Nat × Browser :=
  (b.heap.length, { b with heap := b.heap ++ [props] })

/-- The properties of the target after `Object.assign` has copied one source into it. -/
def assignProps (target source : Props) : Props :=
  source.foldl (fun t kv => setProp t kv.1 kv.2) target

/-- One source of `Object.assign`: its own enumerable properties are set on the target, in
order. A source that is `undefined` or `null` has none. -/
def Browser.assignFrom (b : Browser) (target : Nat) (src : Val) : Browser :=
  { b with heap := b.heap.modify (fun t => assignProps t (ownProps b.heap src)) target }

/-- `Object.assign(target, ...sources)` for a target on the heap: the sources are copied into
the target from left to right; only the target is written. The result of the call is the
target. -/
def Browser.Object_assign (b : Browser) (target : Nat) (sources : List Val) : Browser :=
  sources.foldl (fun b src => b.assignFrom target src) b

/-- `Response.ok` (Fetch standard): the status is in the range 200 to 299. -/
def Response.ok (status : Nat) : Bool := decide (200 ≤ status ∧ status ≤ 299)

/-- The built-ins of the page that work on JSON text. -/
structure Host where
  /-- `JSON.parse(text)`: the value, or `none` when it throws a `SyntaxError`. -/
  JSON_parse : String → Option JsValue
  /-- `JSON.stringify(value, null, space)` for a value that has a JSON text. -/
  JSON_stringify : JsValue → Nat → String

/-! ## String replacement -/

/-- The scan of `replaceAll` for a non-empty pattern: `skip` characters still belong to the
match just replaced; at any other position a match is replaced and the scan goes on behind it. -/
def replaceAllFrom (pat rep : List Char) : Nat → List Char → List Char
  | _, [] => []
  | skip + 1, _ :: cs => replaceAllFrom pat rep skip cs
  | 0, c :: cs =>
    if pat.isPrefixOf (c :: cs) then rep ++ replaceAllFrom pat rep (pat.length - 1) cs
    else c :: replaceAllFrom pat rep 0 cs

/-- `s.replaceAll(pat, rep)` for a string pattern and a replacement without `$`: the matches are
found left to right without overlap and each is replaced; an empty pattern matches before
every character and at the end. -/
def replaceAll (s pat rep : String) : String :=
  if pat.data = [] then ⟨rep.data ++ s.data.flatMap (fun c => c :: rep.data)⟩
  else ⟨replaceAllFrom pat.data rep.data 0 s.data⟩

/-! ## The module -/

/-- The function `$`: `document.getElementById(id)`. -/
def dollar (b : Browser) (id : String) : Option Element := b.getElementById id

/-- `apiBase()`: the origin of the page. -/
def apiBase (b : Browser) : String := b.origin

/-- `saveApiBase(value)`. -/
def saveApiBase (b : Browser) (value : String) : Browser := b.setItem "apiBase" value

/-- `loadApiBase()`: `getItem("apiBase") || "http://localhost:8080"`. -/
def loadApiBase (b : Browser) : String :=
  match b.getItem "apiBase" with
  | some v => if v != "" then v else "http://localhost:8080"
  | none => "http://localhost:8080"

/-- `setStatus(text, kind)`; a call without `kind` passes `"muted"`. -/
def setStatus (b : Browser) (text kind : String) : Browser :=
  match dollar b "status" with
  | none => b
  | some _ =>
    let b := b.writeElement "status" fun el =>
      { el with className := if kind = "error" then "pill danger"
                             else if kind = "ok" then "pill ok" else "muted" }
    b.writeElement "status" fun el => { el with textContent := text }

/-- `pretty(obj)`: `JSON.stringify(obj, null, 2)`. -/
def pretty (host : Host) (obj : JsValue) : String := host.JSON_stringify obj 2

/-- Lines 37 and 38 of `apiFetch`: the parsed body, `null` for an empty text and `{raw: text}`
when `JSON.parse` throws. -/
def parseBody (host : Host) (text : String) : JsValue :=
  if text != "" then
    match host.JSON_parse text with
    | some v => v
    | none => .object [("raw", .string text)]
  else .null

/-- The object literal `{ url, status: res.status, ok: res.ok, data }`. -/
def lastRecord (url : String) (status : Nat) (data : JsValue) : JsValue :=
  .object [("url", .string url), ("status", .number (.ofNat status)),
    ("ok", .bool (Response.ok status)), ("data", data)]

/-- Line 46 of `apiFetch`: `(data && data.error) ? data.error : ("Request failed: " + status)`. -/
def errorMessage (data : JsValue) (status : Nat) : JsValue :=
  if (data.and (data.get "error")).truthy then data.get "error"
  else .string ("Request failed: " ++ toString status)

/-- The call `fetch(url, init)` as the page sees it: the request is issued. -/
def Browser.fetch (b : Browser) (url : String) (init : Option Nat) : Browser :=
  { b with requests := b.requests ++ [{ url := url, init := init }] }

/-- The write to the debug display, lines 40 to 43 of `apiFetch` and lines 58 and 59 of
`healthCheck`: when `$("lastJson")` is an element, its text becomes
`pretty({ url, status, ok, data })`. -/
def showLast (host : Host) (b : Browser) (url : String) (status : Nat) (data : JsValue) :
    Browser :=
  match dollar b "lastJson" with
  | some _ => b.writeElement "lastJson" fun el =>
      { el with textContent := pretty host (lastRecord url status data) }
  | none => b

/-- How a call of `apiFetch` ends. -/
inductive ApiResult where
  /-- The promise resolves with the parsed body. -/
  | returned (data : JsValue)
  /-- The statement `throw new Error(msg)`: the message of the error is `msg` (as a string,
  which leaves a string as it is). -/
  | threw (msg : JsValue)
  /-- A rejection of `fetch` or of `res.text()`, passed on to the caller. -/
  | rejected (e : JsError)

/-- Whether the call throws, that is, whether its promise is rejected. -/
def ApiResult.throws : ApiResult → Bool
  | .returned _ => false
  | .threw _ => true
  | .rejected _ => true

/-- Lines 32 to 34 of `apiFetch`, up to the call of `fetch`: the URL, the address of the object
passed as second argument, and the state with the request recorded. `opts` is the address of
the caller's options object, `none` when the argument is left out. -/
def apiFetchRequest (b : Browser) (path : String) (opts : Option Nat) : String × Nat × Browser :=
  let (o, b) := match opts with
    | some a => (a, b)
    | none => b.alloc []
  let url := apiBase b ++ path
  let (t, b) := b.alloc [("Content-Type", .string "application/json")]
  let h := getProp b.heap o "headers"
  let (src, b) := if h.truthy then (h, b) else
    let (e, b) := b.alloc []
    (Val.ref e, b)
  let b := b.Object_assign t [src]
  let headers := t
  let (t2, b) := b.alloc []
  let (hs, b) := b.alloc [("headers", .ref headers)]
  let b := b.Object_assign t2 [.ref o, .ref hs]
  (url, t2, b.fetch url (some t2))

/-- `apiFetch(path, opts)`, given the answer of the network to its request. -/
def apiFetch (host : Host) (b : Browser) (path : String) (opts : Option Nat)
    (answer : FetchOutcome) : ApiResult × Browser :=
  let (url, _, b) := apiFetchRequest b path opts
  match answer with
  | .rejected e => (.rejected e, b)
  | .resolved _ (.error e) => (.rejected e, b)
  | .resolved status (.ok text) =>
    let data := parseBody host text
    let b := showLast host b url status data
    if !Response.ok status then (.threw (errorMessage data status), b)
    else (.returned data, b)

/-- The `try` block of `healthCheck`: it completes, or throws the error returned. -/
def healthCheckTry (host : Host) (b : Browser) (answer : FetchOutcome) :
    Except JsError Unit × Browser :=
  let url := apiBase b ++ "/health"
  let b := b.fetch url none
  match answer with
  | .rejected e => (.error e, b)
  | .resolved _ (.error e) => (.error e, b)
  | .resolved status (.ok text) =>
    let b := showLast host b url status (.string text)
    if !Response.ok status then
      (.error { message := "Health check failed: " ++ toString status }, b)
    else (.ok (), setStatus b ("Health: " ++ text) "ok")

/-- `healthCheck()`, given the answer of the network to its request: the result is `ok` when
the call completes and `error e` when it throws `e` to its caller. -/
def healthCheck (host : Host) (b : Browser) (answer : FetchOutcome) :
    Except JsError Unit × Browser :=
  let b := setStatus b "Checking health…" "muted"
  match healthCheckTry host b answer with
  | (.ok (), b) => (.ok (), b)
  | (.error e, b) => (.ok (), setStatus b e.message "error")

/-- `esc(s)` for a string `s` (which `String(s)` returns as it is). -/
def esc (s : String) : String :=
  replaceAll (replaceAll (replaceAll (replaceAll (replaceAll s "&" "&amp;") "<" "&lt;")
    ">" "&gt;") "\"" "&quot;") "'" "&#039;"

/-! ## The escaping the specification describes -/

/-- The text the specification gives for one character: the entity of a reserved character,
the character itself otherwise. -/
def escapeChar (c : Char) : String :=
  if c = '&' then "&amp;"
  else if c = '<' then "&lt;"
  else if c = '>' then "&gt;"
  else if c = '\"' then "&quot;"
  else if c = '\'' then "&#039;"
  else String.singleton c

/-- The single pass of the specification: every character replaced by its text, in order. -/
def escapeSinglePass (s : String) : String :=
  ⟨s.data.flatMap fun c => (escapeChar c).data⟩

/-- The five texts that may follow an ampersand in escaped output. -/
def entityTails : List String := ["amp;", "lt;", "gt;", "quot;", "#039;"]

/-! ## A reference host: numbers

The built-ins of a browser on Lean strings, used to evaluate the module on concrete requests.
Numbers are read and written as ECMAScript does: a literal becomes the nearest double, and a
double is written with the fewest digits that name it. -/

/-- Halve an even mantissa while the exponent is negative: at most `fuel` times. -/
def reduceTwos : Nat → Nat → Int → Nat × Int
  | 0, m, p => (m, p)
  | fuel + 1, m, p => if p < 0 ∧ m % 2 = 0 ∧ m ≠ 0 then reduceTwos fuel (m / 2) (p + 1) else (m, p)

/-- The number of binary digits of `n`, counted with at most `fuel` halvings. -/
def bitLength : Nat → Nat → Nat
  | 0, _ => 0
  | fuel + 1, n => if n = 0 then 0 else bitLength fuel (n / 2) + 1

/-- The integer part of the binary logarithm of a positive number. -/
def log2Floor (n : Nat) : Nat := bitLength n n - 1

/-- The double nearest to `d * 10 ^ e` (ties to even), with the sign `neg`. -/
def roundDecimal (neg : Bool) (d : Nat) (e : Int) : JsNumber :=
  if d = 0 then .finite neg 0 0
  else if e > 400 then .infinity neg
  else if e + (log2Floor d + 1 : Nat) < -400 then .finite neg 0 0
  else
    let num := d * 10 ^ e.toNat
    let den := 10 ^ (-e).toNat
    let k0 : Int := (log2Floor num : Int) - (log2Floor den : Int)
    let ge : Bool := if k0 ≥ 0 then decide (den * 2 ^ k0.toNat ≤ num)
                     else decide (den ≤ num * 2 ^ (-k0).toNat)
    let k : Int := if ge then k0 else k0 - 1
    let p : Int := max (k - 52) (-1074)
    let n2 := if p ≥ 0 then num else num * 2 ^ (-p).toNat
    let d2 := if p ≥ 0 then den * 2 ^ p.toNat else den
    let q := n2 / d2
    let r := n2 % d2
    let m := if d2 < 2 * r ∨ (2 * r = d2 ∧ q % 2 = 1) then q + 1 else q
    if p > 971 ∨ (p = 971 ∧ 2 ^ 53 ≤ m) then .infinity neg
    else if p ≥ 0 then .finite neg (m * 2 ^ p.toNat) 0
    else
      let (m', p') := reduceTwos 1074 m p
      .finite neg m' p'

/-- The least `j` from `j0` on with `den ≤ num * 10 ^ j`, searched for `fuel` steps. -/
def firstScale (num den : Nat) : Nat → Nat → Nat
  | 0, j => j
  | fuel + 1, j => if den ≤ num * 10 ^ j then j else firstScale num den fuel (j + 1)

/-- The `n` with `10 ^ (n - 1) ≤ num / den < 10 ^ n`, for a positive quotient. -/
def decimalExponent (num den : Nat) : Int :=
  if den ≤ num then ((Nat.repr (num / den)).length : Int)
  else 1 - (firstScale num den 400 1 : Int)

/-- The shortest digits for the positive double `m * 2 ^ p` with `k` digits, if `k` digits can
name it: the integer `s` and exponent `n` with `10 ^ (k - 1) ≤ s < 10 ^ k` for which `s * 10 ^ (n - k)`
rounds to the double, the nearer of the two candidates around the exact value. -/
def digitsOfLength (m : Nat) (p : Int) (k : Nat) : Option (Nat × Int) :=
  let num := if p ≥ 0 then m * 2 ^ p.toNat else m
  let den := if p ≥ 0 then 1 else 2 ^ (-p).toNat
  let n := decimalExponent num den
  let ex : Int := k - n
  let sn := if ex ≥ 0 then num * 10 ^ ex.toNat else num
  let sd := if ex ≥ 0 then den else den * 10 ^ (-ex).toNat
  let lo := sn / sd
  let r := sn % sd
  let cand (s : Nat) : Option (Nat × Int) :=
    let (s, n) := if s = 10 ^ k then (10 ^ (k - 1), n + 1) else (s, n)
    if 10 ^ (k - 1) ≤ s ∧ roundDecimal false s (n - k) = .finite false m p then some (s, n)
    else none
  match cand lo, cand (lo + 1) with
  | some a, some b => if 2 * r < sd ∨ (2 * r = sd ∧ lo % 2 = 0) then some a else some b
  | some a, none => some a
  | none, some b => some b
  | none, none => none

/-- `Number::toString` for a positive double given by its shortest digits `s` (there are `k` of
them) and decimal exponent `n`. -/
def formatDigits (s : Nat) (n : Int) : String :=
  let ds := (Nat.repr s).data
  let k : Int := ds.length
  let e := n - 1
  let expo := (if e ≥ 0 then "+" else "-") ++ Nat.repr e.natAbs
  if k ≤ n ∧ n ≤ 21 then ⟨ds ++ List.replicate (n - k).toNat '0'⟩
  else if 0 < n ∧ n ≤ 21 then ⟨ds.take n.toNat ++ '.' :: ds.drop n.toNat⟩
  else if -6 < n ∧ n ≤ 0 then ⟨'0' :: '.' :: List.replicate (-n).toNat '0' ++ ds⟩
  else if ds.length = 1 then ⟨ds⟩ ++ "e" ++ expo
  else ⟨ds.take 1 ++ '.' :: ds.drop 1⟩ ++ "e" ++ expo

/-- `Number::toString(x)` in base 10. -/
def numberToString : JsNumber → String
  | .nan => "NaN"
  | .infinity neg => if neg then "-Infinity" else "Infinity"
  | .finite neg m p =>
    if m = 0 then "0"
    else
      match (List.range 17).findSome? fun i => digitsOfLength m p (i + 1) with
      | some (s, n) => (if neg then "-" else "") ++ formatDigits s n
      | none => "NaN"

/-! ## A reference host: `JSON.parse` -/

/-- The tokens of a JSON text. -/
inductive Token where
  | lbrace | rbrace | lbrack | rbrack | colon | comma
  | lit (v : JsValue)

/-- The value of a hexadecimal digit. -/
def hexValue (c : Char) : Option Nat :=
  if '0' ≤ c ∧ c ≤ '9' then some (c.toNat - 48)
  else if 'a' ≤ c ∧ c ≤ 'f' then some (c.toNat - 87)
  else if 'A' ≤ c ∧ c ≤ 'F' then some (c.toNat - 55)
  else none

/-- The code unit four hexadecimal digits name. -/
def hex4 (a b c d : Char) : Option Nat := do
  let a ← hexValue a
  let b ← hexValue b
  let c ← hexValue c
  let d ← hexValue d
  pure (((a * 16 + b) * 16 + c) * 16 + d)

/-- The rest of a string literal after its opening quote: the characters up to the closing
quote, escapes resolved, and the text behind it. A surrogate pair written as two `\u` escapes
is one character; a surrogate without its partner is read as U+FFFD. -/
def lexString : Nat → List Char → List Char → Option (String × List Char)
  | 0, _, _ => none
  | _ + 1, [], _ => none
  | fuel + 1, c :: rest, acc =>
    if c = '\"' then some (⟨acc.reverse⟩, rest)
    else if c = '\\' then
      match rest with
      | 'u' :: h1 :: h2 :: h3 :: h4 :: rest =>
        match hex4 h1 h2 h3 h4 with
        | none => none
        | some hi =>
          if 0xD800 ≤ hi ∧ hi < 0xDC00 then
            match rest with
            | '\\' :: 'u' :: l1 :: l2 :: l3 :: l4 :: rest2 =>
              match hex4 l1 l2 l3 l4 with
              | some lo =>
                if 0xDC00 ≤ lo ∧ lo < 0xE000 then
                  lexString fuel rest2
                    (Char.ofNat (0x10000 + (hi - 0xD800) * 0x400 + (lo - 0xDC00)) :: acc)
                else lexString fuel rest (Char.ofNat 0xFFFD :: acc)
              | none => lexString fuel rest (Char.ofNat 0xFFFD :: acc)
            | _ => lexString fuel rest (Char.ofNat 0xFFFD :: acc)
          else if 0xDC00 ≤ hi ∧ hi < 0xE000 then lexString fuel rest (Char.ofNat 0xFFFD :: acc)
          else lexString fuel rest (Char.ofNat hi :: acc)
      | e :: rest =>
        if e = '\"' then lexString fuel rest ('\"' :: acc)
        else if e = '\\' then lexString fuel rest ('\\' :: acc)
        else if e = '/' then lexString fuel rest ('/' :: acc)
        else if e = 'b' then lexString fuel rest (Char.ofNat 8 :: acc)
        else if e = 'f' then lexString fuel rest (Char.ofNat 12 :: acc)
        else if e = 'n' then lexString fuel rest ('\n' :: acc)
        else if e = 'r' then lexString fuel rest ('\r' :: acc)
        else if e = 't' then lexString fuel rest ('\t' :: acc)
        else none
      | [] => none
    else if c.toNat < 0x20 then none
    else lexString fuel rest (c :: acc)

/-- A number literal at the head of the text, `-? int frac? exp?`, and the text behind it. -/
def lexNumber (cs : List Char) : Option (JsNumber × List Char) :=
  let (neg, cs) := match cs with
    | '-' :: rest => (true, rest)
    | _ => (false, cs)
  let (int, cs) := cs.span Char.isDigit
  if int = [] ∨ (int.length > 1 ∧ int.head? = some '0') then none
  else
    let fracPart : Option (List Char × List Char) := match cs with
      | '.' :: rest =>
        let (frac, rest) := rest.span Char.isDigit
        if frac = [] then none else some (frac, rest)
      | _ => some ([], cs)
    match fracPart with
    | none => none
    | some (frac, cs) =>
      let expPart : Option (Int × List Char) := match cs with
        | e :: rest =>
          if e = 'e' ∨ e = 'E' then
            let (sign, rest) := match rest with
              | '-' :: rest => (true, rest)
              | '+' :: rest => (false, rest)
              | _ => (false, rest)
            let (ds, rest) := rest.span Char.isDigit
            if ds = [] then none
            else some (if sign then -(digitsValue ds : Int) else (digitsValue ds : Int), rest)
          else some (0, cs)
        | [] => some (0, cs)
      match expPart with
      | none => none
      | some (e, cs) =>
        some (roundDecimal neg (digitsValue (int ++ frac)) (e - (frac.length : Int)), cs)

/-- The tokens of a JSON text, `none` when some character starts no token. -/
def lexTokens : Nat → List Char → Option (List Token)
  | 0, _ => none
  | _ + 1, [] => some []
  | fuel + 1, c :: rest =>
    if c = ' ' ∨ c = '\t' ∨ c = '\n' ∨ c = '\r' then lexTokens fuel rest
    else if c = Char.ofNat 123 then (lexTokens fuel rest).map (Token.lbrace :: ·)
    else if c = Char.ofNat 125 then (lexTokens fuel rest).map (Token.rbrace :: ·)
    else if c = '[' then (lexTokens fuel rest).map (Token.lbrack :: ·)
    else if c = ']' then (lexTokens fuel rest).map (Token.rbrack :: ·)
    else if c = ':' then (lexTokens fuel rest).map (Token.colon :: ·)
    else if c = ',' then (lexTokens fuel rest).map (Token.comma :: ·)
    else if c = '\"' then
      match lexString (rest.length + 1) rest [] with
      | some (s, rest) => (lexTokens fuel rest).map (Token.lit (.string s) :: ·)
      | none => none
    else if c = '-' ∨ c.isDigit then
      match lexNumber (c :: rest) with
      | some (n, rest) => (lexTokens fuel rest).map (Token.lit (.number n) :: ·)
      | none => none
    else if "true".data.isPrefixOf (c :: rest) then
      (lexTokens fuel (rest.drop 3)).map (Token.lit (.bool true) :: ·)
    else if "false".data.isPrefixOf (c :: rest) then
      (lexTokens fuel (rest.drop 4)).map (Token.lit (.bool false) :: ·)
    else if "null".data.isPrefixOf (c :: rest) then
      (lexTokens fuel (rest.drop 3)).map (Token.lit .null :: ·)
    else none

/-- `CreateDataProperty` on the object `JSON.parse` is building. -/
def defineProp (props : List (String × JsValue)) (k : String) (v : JsValue) :
    List (String × JsValue) := placeProp props k v

/-- A container the parser is inside of. -/
inductive Frame where
  /-- An array, with the elements read so far. -/
  | arr (items : List JsValue)
  /-- An object between two members, with the members read so far. -/
  | obj (props : List (String × JsValue))
  /-- An object whose member `key` is being read. -/
  | member (props : List (String × JsValue)) (key : String)

/-- What the grammar allows next. -/
inductive Expect where
  /-- A value; also `]` right after `[`. -/
  | value (closable : Bool)
  /-- A member key; also the closing brace right after the opening one. -/
  | key (closable : Bool)
  /-- The colon behind a key. -/
  | colon (key : String)
  /-- A comma or the end of the container. -/
  | next
  /-- Nothing: the text is complete, with this value. -/
  | done (v : JsValue)

/-- A finished value goes into the container it stands in, or is the value of the text. -/
def attach (v : JsValue) : List Frame → Option (Expect × List Frame)
  | [] => some (.done v, [])
  | .arr items :: stack => some (.next, .arr (items ++ [v]) :: stack)
  | .member props k :: stack => some (.next, .obj (defineProp props k v) :: stack)
  | .obj _ :: _ => none

/-- The value of a token list by the JSON grammar. -/
def parseTokens : List Token → Expect → List Frame → Option JsValue
  | [], .done v, _ => some v
  | [], _, _ => none
  | tok :: toks, expect, stack =>
    let step : Option (Expect × List Frame) :=
      match expect, tok, stack with
      | .value _, .lit v, stack => attach v stack
      | .value _, .lbrack, stack => some (.value true, .arr [] :: stack)
      | .value _, .lbrace, stack => some (.key true, .obj [] :: stack)
      | .value true, .rbrack, .arr items :: stack => attach (.array items) stack
      | .key _, .lit (.string k), stack => some (.colon k, stack)
      | .key true, .rbrace, .obj props :: stack => attach (.object props) stack
      | .colon k, .colon, .obj props :: stack => some (.value false, .member props k :: stack)
      | .next, .comma, .arr items :: stack => some (.value false, .arr items :: stack)
      | .next, .rbrack, .arr items :: stack => attach (.array items) stack
      | .next, .comma, .obj props :: stack => some (.key false, .obj props :: stack)
      | .next, .rbrace, .obj props :: stack => attach (.object props) stack
      | _, _, _ => none
    match step with
    | some (expect, stack) => parseTokens toks expect stack
    | none => none

/-- `JSON.parse(text)` without a reviver. -/
def jsonParse (text : String) : Option JsValue :=
  match lexTokens (text.length + 1) text.data with
  | some toks => parseTokens toks (.value false) []
  | none => none

/-! ## A reference host: `JSON.stringify` -/

/-- A hexadecimal digit, in lower case. -/
def hexDigit (n : Nat) : Char := if n < 10 then Char.ofNat (48 + n) else Char.ofNat (87 + n)

/-- `QuoteJSONString`, character by character. -/
def quoteChar (c : Char) : List Char :=
  if c = '\"' then ['\\', '\"']
  else if c = '\\' then ['\\', '\\']
  else if c = Char.ofNat 8 then ['\\', 'b']
  else if c = Char.ofNat 12 then ['\\', 'f']
  else if c = '\n' then ['\\', 'n']
  else if c = '\r' then ['\\', 'r']
  else if c = '\t' then ['\\', 't']
  else if c.toNat < 0x20 then ['\\', 'u', '0', '0', hexDigit (c.toNat / 16), hexDigit (c.toNat % 16)]
  else [c]

/-- `QuoteJSONString(s)`. -/
def quoteString (s : String) : String := ⟨'\"' :: s.data.flatMap quoteChar ++ ['\"']⟩

/-- The text of a container: the parts between the brackets, one per line at the new
indentation when there is a gap, nothing between the brackets when there are no parts. -/
def wrap (opening closing gap indent : String) (parts : List String) : String :=
  if parts = [] then opening ++ closing
  else if gap = "" then opening ++ ",".intercalate parts ++ closing
  else opening ++ "\n" ++ indent ++ gap ++ (",\n" ++ indent ++ gap).intercalate parts
    ++ "\n" ++ indent ++ closing

mutual
/-- `SerializeJSONProperty`: the JSON text of a value at the given indentation, `none` for
`undefined`. -/
def serialize (gap : String) : JsValue → String → Option String
  | .undefined, _ => none
  | .null, _ => some "null"
  | .bool b, _ => some (if b then "true" else "false")
  | .number (.finite neg m p), _ => some (numberToString (.finite neg m p))
  | .number _, _ => some "null"
  | .string s, _ => some (quoteString s)
  | .array items, indent =>
    some (wrap "[" "]" gap indent (serializeItems gap items (indent ++ gap)))
  | .object props, indent =>
    some (wrap (String.singleton (Char.ofNat 123)) (String.singleton (Char.ofNat 125))
      gap indent (serializeProps gap props (indent ++ gap)))
/-- The texts of the elements of an array; `undefined` is written `null`. -/
def serializeItems (gap : String) : List JsValue → String → List String
  | [], _ => []
  | v :: rest, indent =>
    (serialize gap v indent).getD "null" :: serializeItems gap rest indent
/-- The texts of the members of an object; a member whose value is `undefined` is left out. -/
def serializeProps (gap : String) : List (String × JsValue) → String → List String
  | [], _ => []
  | (k, v) :: rest, indent =>
    match serialize gap v indent with
    | some text =>
      (quoteString k ++ (if gap = "" then ":" else ": ") ++ text)
        :: serializeProps gap rest indent
    | none => serializeProps gap rest indent
end

/-- `JSON.stringify(value, null, space)` for a number `space`: the gap is `space` spaces, at
most ten. The result for `undefined`, which has no JSON text, is the empty string here. -/
def jsonStringify (value : JsValue) (space : Nat) : String :=
  (serialize ⟨List.replicate (min space 10) ' '⟩ value "").getD ""

/-- The reference host. -/
def browser : Host where
  JSON_parse := jsonParse
  JSON_stringify := jsonStringify

/-! ## The headers of a caller -/

/-- The headers of a caller who gives them as a plain object, `headers: {name: value, ...}`:
the own enumerable properties of `opts.headers` when that value is truthy, none otherwise.
These are the properties line 33 of `apiFetch` merges into the default. -/
def plainHeaders (b : Browser) (opts : Nat) : Props :=
  if (getProp b.heap opts "headers").truthy then ownProps b.heap (getProp b.heap opts "headers")
  else []

/-- The headers of a caller who gives them as an array of pairs,
`headers: [[name, value], ...]`, the second form `fetch` accepts (Fetch standard, a
`HeadersInit` that is a sequence): the elements of the array at `addr`, each read as a pair of
a name and a value. -/
def pairHeaders (h : Heap) (addr : Nat) : List (String × Val) :=
  (h.props addr).filterMap fun kv =>
    match kv.2 with
    | .ref pair =>
      match getProp h pair "0" with
      | .string name => some (name, getProp h pair "1")
      | _ => none
    | _ => none

/-! ## Sample pages -/

/-- A page served from `https://app.example` with the two display elements, an empty storage
and an empty heap. -/
def samplePage : Browser where
  origin := "https://app.example"
  localStorage := []
  document := [("status", { className := "muted", textContent := "" }),
    ("lastJson", { className := "", textContent := "" })]
  heap := []
  requests := []

/-- The sample page without the element `lastJson`. -/
def barePage : Browser :=
  { samplePage with document := [("status", { className := "muted", textContent := "" })] }

/-- The sample page with the base URL `http://localhost:9000` saved by the user. -/
def configuredPage : Browser := saveApiBase samplePage "http://localhost:9000"

/-- A page whose heap holds an options object, `{method: "POST", headers: h}` at address 0,
and its headers `h`, `{Authorization: "Bearer t", "Content-Type": "text/plain"}`, at address 1. -/
def optionsPage : Browser :=
  { samplePage with
    heap := [[("method", .string "POST"), ("headers", .ref 1)],
      [("Authorization", .string "Bearer t"), ("Content-Type", .string "text/plain")]] }

/-- A page whose heap holds the options object `{method: "GET"}`, without headers, at
address 0. -/
def plainOptionsPage : Browser :=
  { samplePage with heap := [[("method", .string "GET")]] }

/-- A page whose heap holds the options object `{headers: [["Authorization", "Bearer t"]]}`
at address 0: the array of pairs is at address 1 and its one pair at address 2. -/
def pairsPage : Browser :=
  { samplePage with
    heap := [[("headers", .ref 1)], [("0", .ref 2)],
      [("0", .string "Authorization"), ("1", .string "Bearer t")]] }

end App

namespace App

/-! ## Replacement of a one-character pattern -/

theorem replaceAllFrom_single (p : Char) (rep s : List Char) :
    replaceAllFrom [p] rep 0 s = s.flatMap fun c => if c = p then rep else [c] := by
  induction s with
  | nil => simp [replaceAllFrom]
  | cons c cs ih =>
    by_cases h : c = p
    · subst h
      simp [replaceAllFrom, ih]
    · have h' : ¬ p = c := fun e => h e.symm
      simp [replaceAllFrom, ih, h, h']

theorem replaceAll_single (s : String) (p : Char) (rep : String) :
    (replaceAll s (String.singleton p) rep).data
      = s.data.flatMap fun c => if c = p then rep.data else [c] := by
  simp [replaceAll, String.singleton, replaceAllFrom_single]

/-! ## `esc` -/

/-- The five replacements of `esc` on the text one character has become after the first. -/
theorem esc_char (c : Char) :
    ((((((if c = '&' then "&amp;".data else [c]).flatMap
        fun c => if c = '<' then "&lt;".data else [c]).flatMap
        fun c => if c = '>' then "&gt;".data else [c]).flatMap
        fun c => if c = '\"' then "&quot;".data else [c]).flatMap
        fun c => if c = '\'' then "&#039;".data else [c])) = (escapeChar c).data := by
  unfold escapeChar
  by_cases h1 : c = '&'
  · subst h1; decide
  by_cases h2 : c = '<'
  · subst h2; decide
  by_cases h3 : c = '>'
  · subst h3; decide
  by_cases h4 : c = '\"'
  · subst h4; decide
  by_cases h5 : c = '\''
  · subst h5; decide
  simp [h1, h2, h3, h4, h5, String.singleton]

theorem esc_data (s : String) :
    (esc s).data = s.data.flatMap fun c => (escapeChar c).data := by
  have h : ∀ l : List Char,
      ((((l.flatMap fun c => if c = '&' then "&amp;".data else [c]).flatMap
        fun c => if c = '<' then "&lt;".data else [c]).flatMap
        fun c => if c = '>' then "&gt;".data else [c]).flatMap
        fun c => if c = '\"' then "&quot;".data else [c]).flatMap
        (fun c => if c = '\'' then "&#039;".data else [c])
      = l.flatMap fun c => (escapeChar c).data := by
    intro l
    induction l with
    | nil => rfl
    | cons c cs ih =>
      simp only [List.flatMap_cons, List.flatMap_append, ih]
      rw [esc_char c]
  have e1 : (replaceAll s "&" "&amp;").data
      = s.data.flatMap fun c => if c = '&' then "&amp;".data else [c] :=
    replaceAll_single s '&' "&amp;"
  have e2 : ∀ t : String, (replaceAll t "<" "&lt;").data
      = t.data.flatMap fun c => if c = '<' then "&lt;".data else [c] :=
    fun t => replaceAll_single t '<' "&lt;"
  have e3 : ∀ t : String, (replaceAll t ">" "&gt;").data
      = t.data.flatMap fun c => if c = '>' then "&gt;".data else [c] :=
    fun t => replaceAll_single t '>' "&gt;"
  have e4 : ∀ t : String, (replaceAll t "\"" "&quot;").data
      = t.data.flatMap fun c => if c = '\"' then "&quot;".data else [c] :=
    fun t => replaceAll_single t '\"' "&quot;"
  have e5 : ∀ t : String, (replaceAll t "'" "&#039;").data
      = t.data.flatMap fun c => if c = '\'' then "&#039;".data else [c] :=
    fun t => replaceAll_single t '\'' "&#039;"
  unfold esc
  rw [e5, e4, e3, e2, e1, h]

/-- C4: for every string `s`, `esc s` is the single-pass substitution of `s` in which `&`, `<`,
`>`, the double quote and the apostrophe become `&amp;`, `&lt;`, `&gt;`, `&quot;` and `&#039;`
and every other character is kept, in the original order. -/
theorem esc_eq_escapeSinglePass (s : String) : esc s = escapeSinglePass s := by
  apply String.ext
  rw [esc_data]
  rfl

theorem escapeChar_not_reserved (c d : Char) (hd : d ∈ (escapeChar c).data) :
    d ≠ '<' ∧ d ≠ '>' ∧ d ≠ '\"' ∧ d ≠ '\'' := by
  unfold escapeChar at hd
  by_cases h1 : c = '&'
  · subst h1; revert d; decide
  by_cases h2 : c = '<'
  · subst h2; revert d; decide
  by_cases h3 : c = '>'
  · subst h3; revert d; decide
  by_cases h4 : c = '\"'
  · subst h4; revert d; decide
  by_cases h5 : c = '\''
  · subst h5; revert d; decide
  simp [h1, h2, h3, h4, h5, String.singleton] at hd
  subst hd
  exact ⟨h2, h3, h4, h5⟩

/-- The text of a character is an ampersand followed by an entity tail, or has no ampersand. -/
theorem escapeChar_shape (c : Char) :
    (∃ t ∈ entityTails, (escapeChar c).data = '&' :: t.data ∧ '&' ∉ t.data)
      ∨ '&' ∉ (escapeChar c).data := by
  unfold escapeChar
  by_cases h1 : c = '&'
  · subst h1; exact Or.inl ⟨"amp;", by decide, by decide, by decide⟩
  by_cases h2 : c = '<'
  · subst h2; exact Or.inl ⟨"lt;", by decide, by decide, by decide⟩
  by_cases h3 : c = '>'
  · subst h3; exact Or.inl ⟨"gt;", by decide, by decide, by decide⟩
  by_cases h4 : c = '\"'
  · subst h4; exact Or.inl ⟨"quot;", by decide, by decide, by decide⟩
  by_cases h5 : c = '\''
  · subst h5; exact Or.inl ⟨"#039;", by decide, by decide, by decide⟩
  refine Or.inr ?_
  simp [h1, h2, h3, h4, h5, String.singleton]
  exact fun e => h1 e.symm

theorem amp_split {T pre post : List Char} (hT : '&' ∉ T)
    (h : '&' :: T = pre ++ '&' :: post) : pre = [] ∧ post = T := by
  cases pre with
  | nil =>
    simp only [List.nil_append, List.cons.injEq, true_and] at h
    exact ⟨rfl, h.symm⟩
  | cons x pre =>
    simp only [List.cons_append, List.cons.injEq] at h
    exact absurd (h.2 ▸ List.mem_append_right pre (List.mem_cons_self _ _)) hT

theorem amp_followed (l : List Char) (pre post : List Char)
    (h : (l.flatMap fun c => (escapeChar c).data) = pre ++ '&' :: post) :
    ∃ t ∈ entityTails, t.data <+: post := by
  induction l generalizing pre post with
  | nil => simp at h
  | cons c cs ih =>
    rw [List.flatMap_cons, List.append_eq_append_iff] at h
    rcases h with ⟨a, _, ha⟩ | ⟨m, hm, hr⟩
    · exact ih a post ha
    · cases m with
      | nil => exact ih [] post (by simpa using hr.symm)
      | cons x m =>
        simp only [List.cons_append, List.cons.injEq] at hr
        obtain ⟨hx, hpost⟩ := hr
        subst hx
        rcases escapeChar_shape c with ⟨t, ht, hE, hT⟩ | hno
        · rw [hE] at hm
          obtain ⟨_, hmT⟩ := amp_split hT hm
          exact ⟨t, ht, ⟨_, by rw [hpost, hmT]⟩⟩
        · exact absurd (hm ▸ List.mem_append_right pre (List.mem_cons_self _ _)) hno

/-- C10: for every string `s`, the output `esc s` contains none of `<`, `>`, the double quote
and the apostrophe, and every `&` in it is immediately followed by one of `amp;`, `lt;`, `gt;`,
`quot;`, `#039;`. -/
theorem esc_output_has_no_reserved (s : String) :
    (∀ c ∈ (esc s).data, c ≠ '<' ∧ c ≠ '>' ∧ c ≠ '\"' ∧ c ≠ '\'') ∧
    (∀ pre post : List Char, (esc s).data = pre ++ '&' :: post →
      ∃ t ∈ entityTails, t.data <+: post) := by
  rw [esc_data]
  constructor
  · intro d hd
    obtain ⟨c, _, hc⟩ := List.mem_flatMap.mp hd
    exact escapeChar_not_reserved c d hc
  · intro pre post h
    exact amp_followed s.data pre post h

/-! ## What a call leaves unchanged -/

@[simp] theorem writeElement_origin (b : Browser) (id : String) (f : Element → Element) :
    (b.writeElement id f).origin = b.origin := rfl

@[simp] theorem writeElement_localStorage (b : Browser) (id : String) (f : Element → Element) :
    (b.writeElement id f).localStorage = b.localStorage := rfl

@[simp] theorem writeElement_heap (b : Browser) (id : String) (f : Element → Element) :
    (b.writeElement id f).heap = b.heap := rfl

@[simp] theorem writeElement_requests (b : Browser) (id : String) (f : Element → Element) :
    (b.writeElement id f).requests = b.requests := rfl

@[simp] theorem writeElement_document (b : Browser) (id : String) (f : Element → Element) :
    (b.writeElement id f).document = updateElement f b.document id := rfl

@[simp] theorem fetch_origin (b : Browser) (url : String) (init : Option Nat) :
    (b.fetch url init).origin = b.origin := rfl

@[simp] theorem fetch_localStorage (b : Browser) (url : String) (init : Option Nat) :
    (b.fetch url init).localStorage = b.localStorage := rfl

@[simp] theorem fetch_heap (b : Browser) (url : String) (init : Option Nat) :
    (b.fetch url init).heap = b.heap := rfl

@[simp] theorem fetch_document (b : Browser) (url : String) (init : Option Nat) :
    (b.fetch url init).document = b.document := rfl

@[simp] theorem fetch_requests (b : Browser) (url : String) (init : Option Nat) :
    (b.fetch url init).requests = b.requests ++ [{ url := url, init := init }] := rfl

@[simp] theorem setStatus_origin (b : Browser) (text kind : String) :
    (setStatus b text kind).origin = b.origin := by
  unfold setStatus; split <;> rfl

@[simp] theorem setStatus_localStorage (b : Browser) (text kind : String) :
    (setStatus b text kind).localStorage = b.localStorage := by
  unfold setStatus; split <;> rfl

@[simp] theorem setStatus_heap (b : Browser) (text kind : String) :
    (setStatus b text kind).heap = b.heap := by
  unfold setStatus; split <;> rfl

@[simp] theorem setStatus_requests (b : Browser) (text kind : String) :
    (setStatus b text kind).requests = b.requests := by
  unfold setStatus; split <;> rfl

@[simp] theorem showLast_origin (host : Host) (b : Browser) (url : String) (status : Nat)
    (data : JsValue) : (showLast host b url status data).origin = b.origin := by
  unfold showLast; split <;> rfl

@[simp] theorem showLast_localStorage (host : Host) (b : Browser) (url : String) (status : Nat)
    (data : JsValue) : (showLast host b url status data).localStorage = b.localStorage := by
  unfold showLast; split <;> rfl

@[simp] theorem showLast_heap (host : Host) (b : Browser) (url : String) (status : Nat)
    (data : JsValue) : (showLast host b url status data).heap = b.heap := by
  unfold showLast; split <;> rfl

@[simp] theorem showLast_requests (host : Host) (b : Browser) (url : String) (status : Nat)
    (data : JsValue) : (showLast host b url status data).requests = b.requests := by
  unfold showLast; split <;> rfl

theorem Object_assign_frame (sources : List Val) (b : Browser) (target : Nat) :
    (b.Object_assign target sources).origin = b.origin
      ∧ (b.Object_assign target sources).localStorage = b.localStorage
      ∧ (b.Object_assign target sources).document = b.document
      ∧ (b.Object_assign target sources).requests = b.requests := by
  induction sources generalizing b with
  | nil => simp [Browser.Object_assign]
  | cons src rest ih =>
    have h := ih (b.assignFrom target src)
    simpa [Browser.Object_assign, Browser.assignFrom] using h

theorem alloc_frame (b : Browser) (props : Props) :
    (b.alloc props).2.origin = b.origin
      ∧ (b.alloc props).2.localStorage = b.localStorage
      ∧ (b.alloc props).2.document = b.document
      ∧ (b.alloc props).2.requests = b.requests := by
  simp [Browser.alloc]

/-- The request `apiFetch` issues, and what building it leaves unchanged. -/
theorem apiFetchRequest_frame (b : Browser) (path : String) (opts : Option Nat) :
    (apiFetchRequest b path opts).1 = b.origin ++ path
      ∧ (apiFetchRequest b path opts).2.2.origin = b.origin
      ∧ (apiFetchRequest b path opts).2.2.localStorage = b.localStorage
      ∧ (apiFetchRequest b path opts).2.2.document = b.document
      ∧ (apiFetchRequest b path opts).2.2.requests = b.requests ++
          [{ url := b.origin ++ path, init := some (apiFetchRequest b path opts).2.1 }] := by
  unfold apiFetchRequest
  cases opts <;>
    simp only [apiBase] <;>
    split <;>
    simp [Object_assign_frame, alloc_frame, Browser.alloc]

/-! ## Reading an element after a write -/

theorem lookup_updateElement_same (f : Element → Element) (doc : List (String × Element))
    (id : String) : (updateElement f doc id).lookup id = (doc.lookup id).map f := by
  induction doc with
  | nil => simp [updateElement]
  | cons p rest ih =>
    obtain ⟨i, el⟩ := p
    by_cases h : i = id
    · subst h
      simp [updateElement, List.lookup]
    · have h' : (id == i) = false := by simpa using fun e : id = i => h e.symm
      simp [updateElement, h, List.lookup, h', ih]

theorem lookup_updateElement_other (f : Element → Element) (doc : List (String × Element))
    (id other : String) (hne : id ≠ other) :
    (updateElement f doc id).lookup other = doc.lookup other := by
  induction doc with
  | nil => simp [updateElement]
  | cons p rest ih =>
    obtain ⟨i, el⟩ := p
    by_cases h : i = id
    · subst h
      have h' : (other == i) = false := by simpa using fun e : other = i => hne e.symm
      simp [updateElement, List.lookup, h']
    · by_cases h2 : other = i
      · subst h2
        simp [updateElement, h, List.lookup]
      · have h' : (other == i) = false := by simpa using h2
        simp [updateElement, h, List.lookup, h', ih]

@[simp] theorem dollar_fetch (b : Browser) (url : String) (init : Option Nat) (id : String) :
    dollar (b.fetch url init) id = dollar b id := rfl

theorem dollar_setStatus (b : Browser) (text kind : String) :
    dollar (setStatus b text kind) "status" = (dollar b "status").map fun _ =>
      { className := if kind = "error" then "pill danger"
                     else if kind = "ok" then "pill ok" else "muted",
        textContent := text } := by
  unfold setStatus
  cases h : dollar b "status" with
  | none => simp [h]
  | some el =>
    have h' : b.document.lookup "status" = some el := h
    simp [dollar, Browser.getElementById, lookup_updateElement_same, h']

theorem dollar_setStatus_other (b : Browser) (text kind id : String) (hne : "status" ≠ id) :
    dollar (setStatus b text kind) id = dollar b id := by
  unfold setStatus
  cases h : dollar b "status" with
  | none => simp
  | some el =>
    simp [dollar, Browser.getElementById, lookup_updateElement_other _ _ _ _ hne]

theorem dollar_showLast (host : Host) (b : Browser) (url : String) (status : Nat)
    (data : JsValue) :
    dollar (showLast host b url status data) "lastJson" = (dollar b "lastJson").map fun el =>
      { el with textContent := pretty host (lastRecord url status data) } := by
  unfold showLast
  cases h : dollar b "lastJson" with
  | none => simp [h]
  | some el =>
    have h' : b.document.lookup "lastJson" = some el := h
    simp [dollar, Browser.getElementById, lookup_updateElement_same, h']

theorem dollar_showLast_other (host : Host) (b : Browser) (url : String) (status : Nat)
    (data : JsValue) (id : String) (hne : "lastJson" ≠ id) :
    dollar (showLast host b url status data) id = dollar b id := by
  unfold showLast
  cases h : dollar b "lastJson" with
  | none => simp
  | some el =>
    simp [dollar, Browser.getElementById, lookup_updateElement_other _ _ _ _ hne]

/-! ## The stored base URL -/

theorem lookup_setEntry (l : List (String × String)) (k v : String) :
    (setEntry l k v).lookup k = some v := by
  induction l with
  | nil => simp [setEntry, List.lookup]
  | cons kv rest ih =>
    obtain ⟨k', v'⟩ := kv
    by_cases h : k' = k
    · subst h
      simp [setEntry, List.lookup]
    · have h' : (k == k') = false := by simpa using fun e : k = k' => h e.symm
      simp [setEntry, h, List.lookup, h', ih]

/-- C5, as the code has it: `loadApiBase` returns the string stored under `apiBase` when one is
stored and it is not empty, and `http://localhost:8080` when nothing or the empty string is
stored; for every non-empty string `v`, `loadApiBase` after `saveApiBase(v)` returns `v`. -/
theorem loadApiBase_spec (b : Browser) :
    (∀ v, b.getItem "apiBase" = some v → v ≠ "" → loadApiBase b = v)
      ∧ (b.getItem "apiBase" = some "" → loadApiBase b = "http://localhost:8080")
      ∧ (b.getItem "apiBase" = none → loadApiBase b = "http://localhost:8080")
      ∧ (∀ v, v ≠ "" → loadApiBase (saveApiBase b v) = v) := by
  refine ⟨?_, ?_, ?_, ?_⟩
  · intro v h hv
    simp [loadApiBase, h, hv]
  · intro h
    simp [loadApiBase, h]
  · intro h
    simp [loadApiBase, h]
  · intro v hv
    have h : (saveApiBase b v).getItem "apiBase" = some v := by
      simp [saveApiBase, Browser.setItem, Browser.getItem, lookup_setEntry]
    simp [loadApiBase, h, hv]

/-- C5 at a concrete page: the saved address is returned, and the default when nothing is
stored. -/
theorem loadApiBase_spec_witness :
    configuredPage.getItem "apiBase" = some "http://localhost:9000"
      ∧ loadApiBase configuredPage = "http://localhost:9000"
      ∧ samplePage.getItem "apiBase" = none
      ∧ loadApiBase samplePage = "http://localhost:8080"
      ∧ loadApiBase (saveApiBase samplePage "http://10.0.0.7:8080") = "http://10.0.0.7:8080" :=
  ⟨by decide,
    (loadApiBase_spec configuredPage).1 "http://localhost:9000" (by decide) (by decide),
    by decide,
    (loadApiBase_spec samplePage).2.2.1 (by decide),
    (loadApiBase_spec samplePage).2.2.2 "http://10.0.0.7:8080" (by decide)⟩

/-- C5 fails as stated: after `saveApiBase("")` the empty string is what is stored under
`apiBase`, and `loadApiBase` returns the default address, not the stored string. -/
theorem loadApiBase_empty_counterexample :
    (saveApiBase samplePage "").getItem "apiBase" = some ""
      ∧ loadApiBase (saveApiBase samplePage "") = "http://localhost:8080"
      ∧ loadApiBase (saveApiBase samplePage "") ≠ "" := by
  decide

/-! ## The address of a request -/

/-- C6, as the code has it: `healthCheck` issues one request, to the origin of the page
followed by `/health`, and `apiFetch(path)` issues one request, to the origin of the page
followed by `path`; the origin is what `apiBase()` returns, and what is stored under the key
`apiBase` plays no part. -/
theorem request_url_spec (host : Host) (b : Browser) (path : String) (opts : Option Nat)
    (answer : FetchOutcome) :
    (healthCheck host b answer).2.requests
        = b.requests ++ [{ url := apiBase b ++ "/health", init := none }]
      ∧ (∃ init, (apiFetch host b path opts answer).2.requests
        = b.requests ++ [{ url := apiBase b ++ path, init := some init }])
      ∧ apiBase b = b.origin
      ∧ ∀ stored : List (String × String), apiBase { b with localStorage := stored } = apiBase b
      := by
  refine ⟨?_, ?_, rfl, fun _ => rfl⟩
  · unfold healthCheck healthCheckTry
    rcases answer with e | ⟨status, e | text⟩
    · simp [apiBase]
    · simp [apiBase]
    · by_cases hok : Response.ok status <;> simp [apiBase, hok]
  · obtain ⟨hurl, _, _, _, hreq⟩ := apiFetchRequest_frame b path opts
    refine ⟨(apiFetchRequest b path opts).2.1, ?_⟩
    unfold apiFetch
    rcases answer with e | ⟨status, e | text⟩
    · simpa [apiBase] using hreq
    · simpa [apiBase] using hreq
    · by_cases hok : Response.ok status <;> simp [apiBase, hok, hreq]

/-- C6 at a concrete page: the requests go to the origin `https://app.example`. -/
theorem request_url_spec_witness :
    (healthCheck browser configuredPage (.resolved 200 (.ok "ok"))).2.requests
        = configuredPage.requests ++ [{ url := "https://app.example" ++ "/health", init := none }]
      ∧ ∃ init, (apiFetch browser configuredPage "/items" none
          (.resolved 200 (.ok ""))).2.requests
        = configuredPage.requests
            ++ [{ url := "https://app.example" ++ "/items", init := some init }] :=
  ⟨(request_url_spec browser configuredPage "/items" none (.resolved 200 (.ok "ok"))).1,
    (request_url_spec browser configuredPage "/items" none (.resolved 200 (.ok ""))).2.1⟩

/-- C6 fails as stated: on a page served from `https://app.example` with
`http://localhost:9000` stored under `apiBase`, `healthCheck` and `apiFetch("/items")` send
their requests to the origin, not to the stored base URL that `loadApiBase` returns. -/
theorem request_url_counterexample :
    loadApiBase configuredPage = "http://localhost:9000"
      ∧ (healthCheck browser configuredPage
          (.resolved 200 (.ok "ok"))).2.requests
        = [{ url := "https://app.example/health", init := none }]
      ∧ ((apiFetch browser configuredPage "/items" none
          (.resolved 200 (.ok ""))).2.requests.map fun r => r.url)
        = ["https://app.example/items"]
      ∧ "https://app.example/health" ≠ loadApiBase configuredPage ++ "/health"
      ∧ "https://app.example/items" ≠ loadApiBase configuredPage ++ "/items" := by
  decide

/-! ## `healthCheck` -/

/-- C9: `healthCheck` never throws to its caller, and when the element `status` is present it
ends with class `pill ok` and text `Health: ` followed by the body for a status from 200 to 299,
with class `pill danger` and text `Health check failed: ` followed by the decimal status for any
other status, and with class `pill danger` and the message of the error when `fetch` or the
reading of the body fails. -/
theorem healthCheck_spec (host : Host) (b : Browser) :
    (∀ answer, (healthCheck host b answer).1 = .ok ())
      ∧ ∀ el, dollar b "status" = some el →
        (∀ status text, 200 ≤ status ∧ status ≤ 299 →
          dollar (healthCheck host b (.resolved status (.ok text))).2 "status"
            = some { className := "pill ok", textContent := "Health: " ++ text })
        ∧ (∀ status text, ¬ (200 ≤ status ∧ status ≤ 299) →
          dollar (healthCheck host b (.resolved status (.ok text))).2 "status"
            = some { className := "pill danger",
                     textContent := "Health check failed: " ++ toString status })
        ∧ (∀ e, dollar (healthCheck host b (.rejected e)).2 "status"
            = some { className := "pill danger", textContent := e.message })
        ∧ (∀ status e, dollar (healthCheck host b (.resolved status (.error e))).2 "status"
            = some { className := "pill danger", textContent := e.message }) := by
  constructor
  · intro answer
    unfold healthCheck
    rcases h : healthCheckTry host (setStatus b "Checking health…" "muted") answer
      with ⟨_ | _, _⟩ <;> simp [h]
  · intro el hel
    have h0 : dollar (setStatus b "Checking health…" "muted") "status"
        = some { className := "muted", textContent := "Checking health…" } := by
      rw [dollar_setStatus, hel]; rfl
    refine ⟨?_, ?_, ?_, ?_⟩
    · intro status text hs
      have hok : Response.ok status = true := by simp [Response.ok, hs]
      simp [healthCheck, healthCheckTry, hok, dollar_setStatus,
        dollar_showLast_other, h0]
    · intro status text hs
      have hok : Response.ok status = false := by simp [Response.ok, hs]
      simp [healthCheck, healthCheckTry, hok, dollar_setStatus,
        dollar_showLast_other, h0]
    · intro e
      simp [healthCheck, healthCheckTry, dollar_setStatus, h0]
    · intro status e
      simp [healthCheck, healthCheckTry, dollar_setStatus, h0]

/-- C9 at a concrete page, for a healthy service, a failing service and a network failure. -/
theorem healthCheck_spec_witness :
    dollar samplePage "status" = some { className := "muted", textContent := "" }
      ∧ dollar (healthCheck browser samplePage (.resolved 200 (.ok "ok"))).2 "status"
          = some { className := "pill ok", textContent := "Health: ok" }
      ∧ dollar (healthCheck browser samplePage (.resolved 503 (.ok "down"))).2 "status"
          = some { className := "pill danger", textContent := "Health check failed: 503" }
      ∧ dollar (healthCheck browser samplePage (.rejected ⟨"Failed to fetch"⟩)).2 "status"
          = some { className := "pill danger", textContent := "Failed to fetch" } :=
  ⟨rfl,
    ((healthCheck_spec browser samplePage).2 _ rfl).1 200 "ok" (by decide),
    ((healthCheck_spec browser samplePage).2 _ rfl).2.1 503 "down" (by decide),
    ((healthCheck_spec browser samplePage).2 _ rfl).2.2.1 ⟨"Failed to fetch"⟩⟩

/-! ## `apiFetch` -/

/-- The result of `apiFetch` for a response whose body could be read. -/
theorem apiFetch_result (host : Host) (b : Browser) (path : String) (opts : Option Nat)
    (status : Nat) (text : String) :
    (apiFetch host b path opts (.resolved status (.ok text))).1
      = if Response.ok status then .returned (parseBody host text)
        else .threw (errorMessage (parseBody host text) status) := by
  unfold apiFetch
  by_cases hok : Response.ok status <;> simp [hok]

/-- The page after `apiFetch` for a response whose body could be read. -/
theorem apiFetch_state (host : Host) (b : Browser) (path : String) (opts : Option Nat)
    (status : Nat) (text : String) :
    (apiFetch host b path opts (.resolved status (.ok text))).2
      = showLast host (apiFetchRequest b path opts).2.2 (b.origin ++ path) status
          (parseBody host text) := by
  have hurl := (apiFetchRequest_frame b path opts).1
  unfold apiFetch
  by_cases hok : Response.ok status <;> simp [hok, hurl]

theorem get_truthy_of_falsy (data : JsValue) (h : data.truthy = false) :
    (data.get "error").truthy = false := by
  cases data <;> simp_all [JsValue.truthy, JsValue.get]

theorem errorMessage_eq (data : JsValue) (status : Nat) :
    errorMessage data status
      = if (data.get "error").truthy then data.get "error"
        else .string ("Request failed: " ++ toString status) := by
  unfold errorMessage JsValue.and
  by_cases h : data.truthy = true
  · simp [h]
  · have h' : data.truthy = false := by simpa using h
    simp [h', get_truthy_of_falsy data h']

/-- C1: for every response `fetch` resolves with, of status `status` and body `text`,
`apiFetch` throws exactly when the status is outside 200 to 299, and for a status from 200 to 299
it returns the parsed body. -/
theorem apiFetch_throws_iff (host : Host) (b : Browser) (path : String) (opts : Option Nat)
    (status : Nat) (text : String) :
    ((apiFetch host b path opts (.resolved status (.ok text))).1.throws = true
        ↔ ¬ (200 ≤ status ∧ status ≤ 299))
      ∧ (200 ≤ status ∧ status ≤ 299 →
          (apiFetch host b path opts (.resolved status (.ok text))).1
            = .returned (parseBody host text)) := by
  rw [apiFetch_result]
  by_cases hs : 200 ≤ status ∧ status ≤ 299
  · have hok : Response.ok status = true := by simp [Response.ok, hs]
    simp [hok, hs, ApiResult.throws]
  · have hok : Response.ok status = false := by simp [Response.ok, hs]
    simp [hok, hs, ApiResult.throws]

/-- C1 at concrete responses: status 200 returns the parsed body, status 404 throws. -/
theorem apiFetch_throws_iff_witness :
    (200 ≤ 200 ∧ 200 ≤ 299)
      ∧ (apiFetch browser samplePage "/items" none (.resolved 200 (.ok "[7]"))).1
          = .returned (parseBody browser "[7]")
      ∧ parseBody browser "[7]" = .array [.number (.ofNat 7)]
      ∧ (apiFetch browser samplePage "/items" none (.resolved 404 (.ok "[7]"))).1.throws = true :=
  ⟨by decide,
    (apiFetch_throws_iff browser samplePage "/items" none 200 "[7]").2 (by decide),
    rfl,
    (apiFetch_throws_iff browser samplePage "/items" none 404 "[7]").1.mpr (by decide)⟩

/-- C2, as the code has it: for a status outside 200 to 299 the error `apiFetch` throws is built
from the value of the `error` property of the parsed body when that value is truthy, and from
the text `Request failed: ` followed by the decimal status when the value is falsy (`null`,
`false`, `0`, the empty string) or the parsed body has no such property. -/
theorem apiFetch_error_message (host : Host) (b : Browser) (path : String) (opts : Option Nat)
    (status : Nat) (text : String) (hs : ¬ (200 ≤ status ∧ status ≤ 299)) :
    (∀ props v, parseBody host text = .object props → props.lookup "error" = some v →
        v.truthy = true →
        (apiFetch host b path opts (.resolved status (.ok text))).1 = .threw v)
      ∧ (∀ props v, parseBody host text = .object props → props.lookup "error" = some v →
        v.truthy = false →
        (apiFetch host b path opts (.resolved status (.ok text))).1
          = .threw (.string ("Request failed: " ++ toString status)))
      ∧ (∀ props, parseBody host text = .object props → props.lookup "error" = none →
        (apiFetch host b path opts (.resolved status (.ok text))).1
          = .threw (.string ("Request failed: " ++ toString status)))
      ∧ ((∀ props, parseBody host text ≠ .object props) →
        (apiFetch host b path opts (.resolved status (.ok text))).1
          = .threw (.string ("Request failed: " ++ toString status))) := by
  have hok : Response.ok status = false := by simp [Response.ok, hs]
  rw [apiFetch_result, errorMessage_eq]
  simp only [hok]
  refine ⟨?_, ?_, ?_, ?_⟩
  · intro props v hp hv ht
    simp [hp, JsValue.get, hv, ht]
  · intro props v hp hv ht
    simp [hp, JsValue.get, hv, ht]
  · intro props hp hv
    simp [hp, JsValue.get, hv, JsValue.truthy]
  · intro hno
    cases hd : parseBody host text with
    | object props => exact absurd hd (hno props)
    | _ => simp [JsValue.get, JsValue.truthy]

/-- C2 at a concrete response: status 404 with the body `{"error":"No such item"}` throws an
error built from `No such item`, and with the body `[7]` one built from `Request failed: 404`. -/
theorem apiFetch_error_message_witness :
    ¬ (200 ≤ 404 ∧ 404 ≤ 299)
      ∧ (apiFetch browser samplePage "/items" none
          (.resolved 404 (.ok "\x7b\"error\":\"No such item\"\x7d"))).1
          = .threw (.string "No such item")
      ∧ (apiFetch browser samplePage "/items" none (.resolved 404 (.ok "[7]"))).1
          = .threw (.string ("Request failed: " ++ toString 404)) :=
  ⟨by decide,
    (apiFetch_error_message browser samplePage "/items" none 404
      "\x7b\"error\":\"No such item\"\x7d" (by decide)).1
      [("error", .string "No such item")] (.string "No such item") rfl rfl rfl,
    (apiFetch_error_message browser samplePage "/items" none 404 "[7]" (by decide)).2.2.2
      (fun _ h => by cases h)⟩

/-- C2 fails as stated: for status 500 and the body `{"error":""}` the parsed body has the
property `error`, with the empty string as value, and the error thrown is built from
`Request failed: 500`, not from that value. -/
theorem apiFetch_error_message_counterexample :
    parseBody browser "\x7b\"error\":\"\"\x7d" = .object [("error", .string "")]
      ∧ [("error", JsValue.string "")].lookup "error" = some (.string "")
      ∧ (apiFetch browser samplePage "/items" none
          (.resolved 500 (.ok "\x7b\"error\":\"\"\x7d"))).1
          = .threw (.string "Request failed: 500")
      ∧ "Request failed: 500" ≠ "" :=
  ⟨rfl, rfl, rfl, by decide⟩

/-- C3: reading the body never makes `apiFetch` fail. The parsed body is `null` for an empty
text, the value `JSON.parse` returns for a text it accepts, and `{raw: text}` for a non-empty
text it rejects; for a status from 200 to 299 `apiFetch` returns the parsed body, so `{raw: text}`
for a malformed body. -/
theorem apiFetch_body (host : Host) (b : Browser) (path : String) (opts : Option Nat)
    (status : Nat) (text : String) :
    parseBody host "" = .null
      ∧ (∀ v, text ≠ "" → host.JSON_parse text = some v → parseBody host text = v)
      ∧ (text ≠ "" → host.JSON_parse text = none →
          parseBody host text = .object [("raw", .string text)])
      ∧ (∀ e, (apiFetch host b path opts (.resolved status (.ok text))).1 ≠ .rejected e)
      ∧ (200 ≤ status ∧ status ≤ 299 →
          (apiFetch host b path opts (.resolved status (.ok text))).1
            = .returned (parseBody host text))
      ∧ (200 ≤ status ∧ status ≤ 299 → text ≠ "" → host.JSON_parse text = none →
          (apiFetch host b path opts (.resolved status (.ok text))).1
            = .returned (.object [("raw", .string text)])) := by
  have hraw : text ≠ "" → host.JSON_parse text = none →
      parseBody host text = .object [("raw", .string text)] := by
    intro ht hp
    simp [parseBody, ht, hp]
  have hret : 200 ≤ status ∧ status ≤ 299 →
      (apiFetch host b path opts (.resolved status (.ok text))).1
        = .returned (parseBody host text) := by
    intro hs
    have hok : Response.ok status = true := by simp [Response.ok, hs]
    rw [apiFetch_result]
    simp [hok]
  refine ⟨by simp [parseBody], ?_, hraw, ?_, hret, ?_⟩
  · intro v ht hp
    simp [parseBody, ht, hp]
  · intro e
    rw [apiFetch_result]
    split <;> simp
  · intro hs ht hp
    rw [hret hs, hraw ht hp]

/-- C3 at a concrete response: status 200 with the body `<html>`, which is not JSON, returns
`{raw: "<html>"}`. -/
theorem apiFetch_body_witness :
    (200 ≤ 200 ∧ 200 ≤ 299) ∧ "<html>" ≠ "" ∧ browser.JSON_parse "<html>" = none
      ∧ (apiFetch browser samplePage "/" none (.resolved 200 (.ok "<html>"))).1
          = .returned (.object [("raw", .string "<html>")])
      ∧ parseBody browser "[7]" = .array [.number (.ofNat 7)] :=
  ⟨by decide, by decide, rfl,
    (apiFetch_body browser samplePage "/" none 200 "<html>").2.2.2.2.2 (by decide) (by decide)
      rfl,
    (apiFetch_body browser samplePage "/" none 200 "[7]").2.1 _ (by decide) rfl⟩

/-- C8: for every response, when the element `lastJson` is present its text becomes the JSON
text, indented by two spaces, of `{url, status, ok, data}` with the URL of the request, the
status, `true` for `ok` exactly when the status is from 200 to 299, and the parsed body, whether
or not the call then throws; when the element is absent the document is left as it was; and
the result of the call does not depend on the document. -/
theorem apiFetch_lastJson (host : Host) (b : Browser) (path : String) (opts : Option Nat)
    (status : Nat) (text : String) :
    (∀ el, dollar b "lastJson" = some el →
        dollar (apiFetch host b path opts (.resolved status (.ok text))).2 "lastJson"
          = some { className := el.className,
                   textContent := host.JSON_stringify
                     (.object [("url", .string (apiBase b ++ path)),
                       ("status", .number (.ofNat status)),
                       ("ok", .bool (decide (200 ≤ status ∧ status ≤ 299))),
                       ("data", parseBody host text)]) 2 })
      ∧ (dollar b "lastJson" = none →
          (apiFetch host b path opts (.resolved status (.ok text))).2.document = b.document)
      ∧ (∀ doc : List (String × Element),
          (apiFetch host { b with document := doc } path opts (.resolved status (.ok text))).1
            = (apiFetch host b path opts (.resolved status (.ok text))).1) := by
  obtain ⟨_, _, _, hdoc, _⟩ := apiFetchRequest_frame b path opts
  have hd : ∀ id, dollar (apiFetchRequest b path opts).2.2 id = dollar b id := by
    intro id
    simp [dollar, Browser.getElementById, hdoc]
  refine ⟨?_, ?_, ?_⟩
  · intro el hel
    rw [apiFetch_state, dollar_showLast, hd, hel]
    rfl
  · intro hnone
    rw [apiFetch_state]
    unfold showLast
    rw [hd, hnone]
    exact hdoc
  · intro doc
    rw [apiFetch_result, apiFetch_result]

/-- C8 at a concrete response: status 404 with the body `[7]`, on a page with the element
`lastJson` and on a page without it. -/
theorem apiFetch_lastJson_witness :
    dollar samplePage "lastJson" = some { className := "", textContent := "" }
      ∧ dollar (apiFetch browser samplePage "/items" none (.resolved 404 (.ok "[7]"))).2
          "lastJson"
        = some { className := "", textContent := "\x7b\n  \"url\": \"https://app.example/items\",\n  \"status\": 404,\n  \"ok\": false,\n  \"data\": [\n    7\n  ]\n\x7d" }
      ∧ dollar barePage "lastJson" = none
      ∧ (apiFetch browser barePage "/items" none (.resolved 404 (.ok "[7]"))).2.document
        = barePage.document :=
  ⟨rfl,
    (apiFetch_lastJson browser samplePage "/items" none 404 "[7]").1 _ rfl,
    rfl,
    (apiFetch_lastJson browser barePage "/items" none 404 "[7]").2.1 rfl⟩

/-! ## Objects on the heap -/

theorem modify_append_at {α : Type} (f : α → α) (l : List α) (x : α) (rest : List α) (n : Nat)
    (hn : n = l.length) : (l ++ x :: rest).modify f n = l ++ f x :: rest := by
  subst hn
  induction l with
  | nil => simp
  | cons y l ih => simp [ih]

theorem props_append_lt (h extra : Heap) (x : Nat) (hx : x < h.length) :
    Heap.props (h ++ extra) x = Heap.props h x := by
  simp [Heap.props, List.getElem?_append_left hx]

theorem props_append_at (h : Heap) (p : Props) (rest : Heap) (n : Nat) (hn : n = h.length) :
    Heap.props (h ++ p :: rest) n = p := by
  subst hn
  induction h with
  | nil => simp [Heap.props]
  | cons y l ih => simpa [Heap.props] using ih

theorem ownProps_append (h extra : Heap) (v : Val) (hv : ∀ x, v = .ref x → x < h.length) :
    ownProps (h ++ extra) v = ownProps h v := by
  cases v with
  | ref x => simp [ownProps, props_append_lt h extra x (hv x rfl)]
  | _ => rfl

theorem getProp_append (h extra : Heap) (a : Nat) (key : String) (ha : a < h.length) :
    getProp (h ++ extra) a key = getProp h a key := by
  simp [getProp, props_append_lt h extra a ha]

theorem modify_at_one {α : Type} (f : α → α) (h : List α) (x y : α) (rest : List α) (n : Nat)
    (hn : n = h.length + 1) :
    List.modify f n (h ++ x :: y :: rest) = h ++ x :: f y :: rest := by
  have := modify_append_at f (h ++ [x]) y rest n (by simp [hn])
  simpa using this

theorem modify_at_two {α : Type} (f : α → α) (h : List α) (x y z : α) (rest : List α)
    (n : Nat) (hn : n = h.length + 2) :
    List.modify f n (h ++ x :: y :: z :: rest) = h ++ x :: y :: f z :: rest := by
  have := modify_append_at f (h ++ [x, y]) z rest n (by simp [hn])
  simpa using this

theorem props_at_two (h : Heap) (x y z : Props) (rest : Heap) (n : Nat)
    (hn : n = h.length + 2) : Heap.props (h ++ x :: y :: z :: rest) n = z := by
  have := props_append_at (h ++ [x, y]) z rest n (by simp [hn])
  simpa using this

theorem props_at_three (h : Heap) (x y z w : Props) (rest : Heap) (n : Nat)
    (hn : n = h.length + 3) : Heap.props (h ++ x :: y :: z :: w :: rest) n = w := by
  have := props_append_at (h ++ [x, y, z]) w rest n (by simp [hn])
  simpa using this

theorem apiFetchRequest_heap_truthy (b : Browser) (path : String) (a : Nat)
    (ha : a < b.heap.length)
    (hclosed : ∀ x, getProp b.heap a "headers" = .ref x → x < b.heap.length)
    (ht : (getProp b.heap a "headers").truthy = true) :
    (apiFetchRequest b path (some a)).2.2.heap
        = b.heap ++ [assignProps [("Content-Type", .string "application/json")]
              (ownProps b.heap (getProp b.heap a "headers")),
            assignProps (assignProps [] (b.heap.props a)) [("headers", .ref b.heap.length)],
            [("headers", .ref b.heap.length)]]
      ∧ (apiFetchRequest b path (some a)).2.1 = b.heap.length + 1 := by
  simp only [apiFetchRequest, Browser.alloc, Browser.Object_assign, List.foldl,
    Browser.assignFrom, Browser.fetch, getProp_append _ _ _ _ ha, ht, if_true]
  generalize b.heap = h at *
  generalize getProp h a "headers" = hv at *
  rw [ownProps_append h _ hv hclosed, modify_append_at _ h _ [] _ rfl]
  generalize assignProps [("Content-Type", Val.string "application/json")] (ownProps h hv) = H1
  simp only [List.append_assoc, List.cons_append, List.nil_append]
  have e1 : ownProps (h ++ [H1, [], [("headers", Val.ref h.length)]]) (Val.ref a)
      = h.props a := by
    simp [ownProps, props_append_lt h _ a ha]
  rw [e1, modify_at_one _ h H1 [] _ _ (by simp)]
  have e2 : ownProps (h ++ [H1, assignProps [] (h.props a), [("headers", Val.ref h.length)]])
      (Val.ref (h ++ [H1, []]).length) = [("headers", Val.ref h.length)] := by
    simp only [ownProps]
    exact props_at_two h _ _ _ [] _ (by simp)
  rw [e2, modify_at_one _ h H1 _ _ _ (by simp)]
  simp

theorem apiFetchRequest_heap_falsy (b : Browser) (path : String) (a : Nat)
    (ha : a < b.heap.length)
    (ht : (getProp b.heap a "headers").truthy = false) :
    (apiFetchRequest b path (some a)).2.2.heap
        = b.heap ++ [assignProps [("Content-Type", .string "application/json")] [], [],
            assignProps (assignProps [] (b.heap.props a)) [("headers", .ref b.heap.length)],
            [("headers", .ref b.heap.length)]]
      ∧ (apiFetchRequest b path (some a)).2.1 = b.heap.length + 2 := by
  simp only [apiFetchRequest, Browser.alloc, Browser.Object_assign, List.foldl,
    Browser.assignFrom, Browser.fetch, getProp_append _ _ _ _ ha, ht]
  generalize b.heap = h at *
  simp only [List.append_assoc, List.cons_append, List.nil_append, Bool.false_eq_true,
    if_false]
  have e0 : ownProps (h ++ [[("Content-Type", Val.string "application/json")], []])
      (Val.ref (h ++ [[("Content-Type", Val.string "application/json")]]).length) = [] := by
    simp only [ownProps]
    have := props_append_at (h ++ [[("Content-Type", Val.string "application/json")]]) []
      [] _ rfl
    simpa using this
  rw [e0, modify_append_at _ h _ _ _ rfl]
  generalize assignProps [("Content-Type", Val.string "application/json")] [] = H1
  simp only [List.append_assoc, List.cons_append, List.nil_append]
  have e1 : ownProps (h ++ [H1, [], [], [("headers", Val.ref h.length)]]) (Val.ref a)
      = h.props a := by
    simp [ownProps, props_append_lt h _ a ha]
  rw [e1, modify_at_two _ h H1 [] [] _ _ (by simp)]
  have e2 : ownProps (h ++ [H1, [], assignProps [] (h.props a),
      [("headers", Val.ref h.length)]])
      (Val.ref (h ++ [H1, [], []]).length) = [("headers", Val.ref h.length)] := by
    simp only [ownProps]
    exact props_at_three h _ _ _ _ [] _ (by simp)
  rw [e2, modify_at_two _ h H1 [] _ _ _ (by simp)]
  simp

theorem lookup_cons_ne {α : Type} (k k' : String) (v : α) (rest : List (String × α))
    (h : k ≠ k') : ((k', v) :: rest).lookup k = rest.lookup k := by
  have h' : (k == k') = false := by simpa using h
  simp [List.lookup, h']

theorem lookup_cons_self {α : Type} (k : String) (v : α) (rest : List (String × α)) :
    ((k, v) :: rest).lookup k = some v := by
  simp [List.lookup]

theorem lookup_replaceProp_same {α : Type} (k : String) (v : α) (p : List (String × α))
    (h : p.any (fun kv => kv.1 = k) = true) : (replaceProp k v p).lookup k = some v := by
  induction p with
  | nil => simp at h
  | cons kv rest ih =>
    obtain ⟨k', v'⟩ := kv
    by_cases hk : k' = k
    · subst hk
      simp [replaceProp, lookup_cons_self]
    · have hrest : rest.any (fun kv => kv.1 = k) = true := by simpa [hk] using h
      have hk' : k ≠ k' := fun e => hk e.symm
      simp [replaceProp, hk, lookup_cons_ne k k' _ _ hk', ih hrest]

theorem lookup_replaceProp_other {α : Type} (k other : String) (v : α)
    (p : List (String × α)) (hne : k ≠ other) :
    (replaceProp k v p).lookup other = p.lookup other := by
  induction p with
  | nil => rfl
  | cons kv rest ih =>
    obtain ⟨k', v'⟩ := kv
    by_cases hk : k' = k
    · subst hk
      have h' : other ≠ k' := fun e => hne e.symm
      simp [replaceProp, lookup_cons_ne other k' _ _ h']
    · by_cases h2 : other = k'
      · subst h2
        simp [replaceProp, hk, lookup_cons_self]
      · simp [replaceProp, hk, lookup_cons_ne other k' _ _ h2, ih]

theorem lookup_insertIndex_same {α : Type} (i : Nat) (k : String) (v : α)
    (p : List (String × α)) (h : p.any (fun kv => kv.1 = k) = false) :
    (insertIndex i k v p).lookup k = some v := by
  induction p with
  | nil => simp [insertIndex, lookup_cons_self]
  | cons kv rest ih =>
    obtain ⟨k', v'⟩ := kv
    simp only [List.any_cons, Bool.or_eq_false_iff, decide_eq_false_iff_not] at h
    have hk' : k ≠ k' := fun e => h.1 e.symm
    unfold insertIndex
    split
    · split
      · exact lookup_cons_self k v _
      · rw [lookup_cons_ne k k' _ _ hk']
        exact ih h.2
    · exact lookup_cons_self k v _

theorem lookup_insertIndex_other {α : Type} (i : Nat) (k other : String) (v : α)
    (p : List (String × α)) (hne : k ≠ other) :
    (insertIndex i k v p).lookup other = p.lookup other := by
  have h' : other ≠ k := fun e => hne e.symm
  induction p with
  | nil => simp [insertIndex, lookup_cons_ne other k _ _ h']
  | cons kv rest ih =>
    obtain ⟨k', v'⟩ := kv
    unfold insertIndex
    split
    · split
      · exact lookup_cons_ne other k _ _ h'
      · by_cases h2 : other = k'
        · subst h2
          simp [lookup_cons_self]
        · rw [lookup_cons_ne other k' _ _ h2, lookup_cons_ne other k' _ _ h2]
          exact ih
    · exact lookup_cons_ne other k _ _ h'

theorem lookup_append_new {α : Type} (k : String) (v : α) (p : List (String × α))
    (h : p.any (fun kv => kv.1 = k) = false) : (p ++ [(k, v)]).lookup k = some v := by
  induction p with
  | nil => simp [lookup_cons_self]
  | cons kv rest ih =>
    obtain ⟨k', v'⟩ := kv
    simp only [List.any_cons, Bool.or_eq_false_iff, decide_eq_false_iff_not] at h
    have hk' : k ≠ k' := fun e => h.1 e.symm
    rw [List.cons_append, lookup_cons_ne k k' _ _ hk']
    exact ih h.2

theorem lookup_append_other {α : Type} (k other : String) (v : α) (p : List (String × α))
    (hne : k ≠ other) : (p ++ [(k, v)]).lookup other = p.lookup other := by
  have h' : other ≠ k := fun e => hne e.symm
  induction p with
  | nil => simp [lookup_cons_ne other k _ _ h']
  | cons kv rest ih =>
    obtain ⟨k', v'⟩ := kv
    by_cases h2 : other = k'
    · subst h2
      simp [lookup_cons_self]
    · rw [List.cons_append, lookup_cons_ne other k' _ _ h2, lookup_cons_ne other k' _ _ h2]
      exact ih

theorem lookup_setProp_same (p : Props) (k : String) (v : Val) :
    (setProp p k v).lookup k = some v := by
  unfold setProp placeProp
  cases h : p.any (fun kv => kv.1 = k) with
  | true => simpa using lookup_replaceProp_same k v p h
  | false =>
    cases hi : arrayIndex k with
    | some i => simpa using lookup_insertIndex_same i k v p h
    | none => simpa using lookup_append_new k v p h

theorem lookup_setProp_other (p : Props) (k other : String) (v : Val) (hne : k ≠ other) :
    (setProp p k v).lookup other = p.lookup other := by
  unfold setProp placeProp
  cases h : p.any (fun kv => kv.1 = k) with
  | true => simpa using lookup_replaceProp_other k other v p hne
  | false =>
    cases hi : arrayIndex k with
    | some i => simpa using lookup_insertIndex_other i k other v p hne
    | none => simpa using lookup_append_other k other v p hne

theorem lookup_eq_none_of_not_mem (p : Props) (k : String) (h : k ∉ p.map Prod.fst) :
    p.lookup k = none := by
  induction p with
  | nil => rfl
  | cons kv rest ih =>
    obtain ⟨k', v'⟩ := kv
    simp only [List.map_cons, List.mem_cons, not_or] at h
    have h' : (k == k') = false := by simpa using h.1
    simp [List.lookup, h', ih h.2]

/-- The value of a key after `Object.assign` has copied a source with distinct keys: the value
in the source when the source has the key, the value the target had otherwise. -/
theorem lookup_assignProps (src : Props) (hnd : (src.map Prod.fst).Nodup) (t : Props)
    (k : String) :
    (assignProps t src).lookup k = (src.lookup k).orElse fun _ => t.lookup k := by
  induction src generalizing t with
  | nil => simp [assignProps]
  | cons kv rest ih =>
    obtain ⟨k0, v0⟩ := kv
    simp only [List.map_cons, List.nodup_cons] at hnd
    have hstep : assignProps t ((k0, v0) :: rest) = assignProps (setProp t k0 v0) rest := rfl
    rw [hstep, ih hnd.2]
    by_cases h : k = k0
    · subst h
      simp [lookup_eq_none_of_not_mem rest k hnd.1, lookup_setProp_same, List.lookup]
    · have h' : (k == k0) = false := by simpa using h
      have h'' : k0 ≠ k := fun e => h e.symm
      simp [List.lookup, h', lookup_setProp_other t k0 k v0 h'']

/-! ## The options `apiFetch` passes to `fetch` -/

theorem apiFetch_heap (host : Host) (b : Browser) (path : String) (opts : Option Nat)
    (answer : FetchOutcome) :
    (apiFetch host b path opts answer).2.heap = (apiFetchRequest b path opts).2.2.heap
      ∧ (apiFetch host b path opts answer).2.requests
          = (apiFetchRequest b path opts).2.2.requests := by
  unfold apiFetch
  rcases answer with e | ⟨status, e | text⟩
  · simp
  · simp
  · by_cases hok : Response.ok status <;> simp [hok]

/-- The heap after the request is built, the address of the object passed to `fetch` and the
address of its headers. -/
theorem apiFetchRequest_heap (b : Browser) (path : String) (a : Nat)
    (ha : a < b.heap.length)
    (hclosed : ∀ x, getProp b.heap a "headers" = .ref x → x < b.heap.length) :
    ∃ init fresh,
      (apiFetchRequest b path (some a)).2.1 = init
        ∧ (apiFetchRequest b path (some a)).2.2.heap = b.heap ++ fresh
        ∧ Heap.props (b.heap ++ fresh) b.heap.length
            = assignProps [("Content-Type", .string "application/json")] (plainHeaders b a)
        ∧ Heap.props (b.heap ++ fresh) init
            = assignProps (assignProps [] (b.heap.props a)) [("headers", .ref b.heap.length)]
        := by
  by_cases ht : (getProp b.heap a "headers").truthy = true
  · obtain ⟨hheap, hinit⟩ := apiFetchRequest_heap_truthy b path a ha hclosed ht
    refine ⟨_, _, hinit, hheap, ?_, ?_⟩
    · rw [props_append_at b.heap _ _ _ rfl]
      simp [plainHeaders, ht]
    · have := props_append_at (b.heap ++ [assignProps
        [("Content-Type", .string "application/json")]
        (ownProps b.heap (getProp b.heap a "headers"))])
        (assignProps (assignProps [] (b.heap.props a)) [("headers", .ref b.heap.length)])
        [[("headers", .ref b.heap.length)]] (b.heap.length + 1) (by simp)
      simpa using this
  · have ht' : (getProp b.heap a "headers").truthy = false := by simpa using ht
    obtain ⟨hheap, hinit⟩ := apiFetchRequest_heap_falsy b path a ha ht'
    refine ⟨_, _, hinit, hheap, ?_, ?_⟩
    · rw [props_append_at b.heap _ _ _ rfl]
      simp [plainHeaders, ht']
    · exact props_at_two b.heap _ _ _ _ _ rfl

/-- C7, as the code has it: for every options object `opts` whose headers, if any, are given
as a plain object, that is, as the own enumerable properties of `opts.headers` (`opts` and
`opts.headers` being objects of the heap with distinct keys), the object `apiFetch` passes to
`fetch` has as `headers` a fresh object that is the default merged with them: every header of
the caller has the value the caller gave (so a `Content-Type` of the caller replaces the
default), `Content-Type` is `application/json` when the caller gives none, and there is no
other header; every property of `opts` other than `headers` is passed with the value it has in
`opts`; and no object that existed before the call, `opts` among them, is changed. -/
theorem apiFetch_options (host : Host) (b : Browser) (path : String) (opts : Nat)
    (answer : FetchOutcome)
    (hopts : opts < b.heap.length)
    (hkeys : ((b.heap.props opts).map Prod.fst).Nodup)
    (hclosed : ∀ x, getProp b.heap opts "headers" = .ref x → x < b.heap.length)
    (hhdr : ((plainHeaders b opts).map Prod.fst).Nodup) :
    ∃ init headers fresh,
      (apiFetch host b path (some opts) answer).2.requests
          = b.requests ++ [{ url := apiBase b ++ path, init := some init }]
        ∧ (apiFetch host b path (some opts) answer).2.heap = b.heap ++ fresh
        ∧ b.heap.length ≤ init ∧ b.heap.length ≤ headers
        ∧ getProp (b.heap ++ fresh) init "headers" = .ref headers
        ∧ (∀ k v, (plainHeaders b opts).lookup k = some v →
            getProp (b.heap ++ fresh) headers k = v)
        ∧ ((plainHeaders b opts).lookup "Content-Type" = none →
            getProp (b.heap ++ fresh) headers "Content-Type" = .string "application/json")
        ∧ (∀ k, k ≠ "Content-Type" → (plainHeaders b opts).lookup k = none →
            getProp (b.heap ++ fresh) headers k = .undefined)
        ∧ (∀ k, k ≠ "headers" →
            getProp (b.heap ++ fresh) init k = getProp b.heap opts k)
        ∧ (∀ x, x < b.heap.length → Heap.props (b.heap ++ fresh) x = b.heap.props x) := by
  obtain ⟨init, fresh, hinit, hheap, hH, hI⟩ := apiFetchRequest_heap b path opts hopts hclosed
  obtain ⟨_, _, _, _, hreq⟩ := apiFetchRequest_frame b path (some opts)
  obtain ⟨hh, hr⟩ := apiFetch_heap host b path (some opts) answer
  have hge : b.heap.length ≤ init := by
    rw [← hinit]
    by_cases ht : (getProp b.heap opts "headers").truthy = true
    · rw [(apiFetchRequest_heap_truthy b path opts hopts hclosed ht).2]; omega
    · rw [(apiFetchRequest_heap_falsy b path opts hopts (by simpa using ht)).2]; omega
  refine ⟨init, b.heap.length, fresh, ?_, ?_, hge, le_refl _, ?_, ?_, ?_, ?_, ?_, ?_⟩
  · rw [hr, hreq, hinit]; rfl
  · rw [hh, hheap]
  · have hone : assignProps (assignProps [] (b.heap.props opts))
        [("headers", .ref b.heap.length)]
        = setProp (assignProps [] (b.heap.props opts)) "headers" (.ref b.heap.length) := rfl
    simp [getProp, hI, hone, lookup_setProp_same]
  · intro k v hk
    simp [getProp, hH, lookup_assignProps _ hhdr, hk]
  · intro hk
    simp [getProp, hH, lookup_assignProps _ hhdr, hk, List.lookup]
  · intro k hne hk
    simp [getProp, hH, lookup_assignProps _ hhdr, hk, lookup_cons_ne k "Content-Type" _ _ hne]
  · intro k hk
    have hone : assignProps (assignProps [] (b.heap.props opts))
        [("headers", .ref b.heap.length)]
        = setProp (assignProps [] (b.heap.props opts)) "headers" (.ref b.heap.length) := rfl
    have hne : "headers" ≠ k := fun e => hk e.symm
    rw [getProp, hI, hone, lookup_setProp_other _ _ _ _ hne, lookup_assignProps _ hkeys]
    cases h : (b.heap.props opts).lookup k <;> simp [getProp, h]
  · intro x hx
    exact props_append_lt b.heap fresh x hx

/-- C7 at concrete options: `{method: "POST", headers: {Authorization: "Bearer t",
"Content-Type": "text/plain"}}` is passed on with both headers of the caller, and
`{method: "GET"}` with the default `Content-Type`; the objects of the caller are as before. -/
theorem apiFetch_options_witness :
    (0 < optionsPage.heap.length
      ∧ ∃ init headers fresh,
        (apiFetch browser optionsPage "/items" (some 0) (.resolved 200 (.ok ""))).2.heap
            = optionsPage.heap ++ fresh
          ∧ getProp (optionsPage.heap ++ fresh) init "headers" = .ref headers
          ∧ getProp (optionsPage.heap ++ fresh) headers "Content-Type" = .string "text/plain"
          ∧ getProp (optionsPage.heap ++ fresh) headers "Authorization" = .string "Bearer t"
          ∧ getProp (optionsPage.heap ++ fresh) init "method" = .string "POST"
          ∧ Heap.props (optionsPage.heap ++ fresh) 0 = optionsPage.heap.props 0
          ∧ Heap.props (optionsPage.heap ++ fresh) 1 = optionsPage.heap.props 1)
      ∧ ∃ init headers fresh,
        (apiFetch browser plainOptionsPage "/items" (some 0) (.resolved 200 (.ok ""))).2.heap
            = plainOptionsPage.heap ++ fresh
          ∧ getProp (plainOptionsPage.heap ++ fresh) init "headers" = .ref headers
          ∧ getProp (plainOptionsPage.heap ++ fresh) headers "Content-Type"
              = .string "application/json"
          ∧ getProp (plainOptionsPage.heap ++ fresh) init "method" = .string "GET" := by
  refine ⟨⟨by decide, ?_⟩, ?_⟩
  · obtain ⟨init, headers, fresh, _, hheap, _, _, hh, hsup, _, _, hother, hold⟩ :=
      apiFetch_options browser optionsPage "/items" 0 (.resolved 200 (.ok ""))
        (by decide) (by decide) (fun x h => by cases h; decide) (by decide)
    exact ⟨init, headers, fresh, hheap, hh, hsup "Content-Type" _ rfl,
      hsup "Authorization" _ rfl, hother "method" (by decide), hold 0 (by decide),
      hold 1 (by decide)⟩
  · obtain ⟨init, headers, fresh, _, hheap, _, _, hh, _, hdef, _, hother, _⟩ :=
      apiFetch_options browser plainOptionsPage "/items" 0 (.resolved 200 (.ok ""))
        (by decide) (by decide) (fun x h => by cases h) (by decide)
    exact ⟨init, headers, fresh, hheap, hh, hdef rfl, hother "method" (by decide)⟩

/-- C7 fails as stated: with the options `{headers: [["Authorization", "Bearer t"]]}`, headers
in the array-of-pairs form that `fetch` accepts, the caller supplies the header `Authorization`
with the value `Bearer t`, and the headers `apiFetch` passes to `fetch` have no
`Authorization`: line 33 copies the own enumerable properties of the array, so they hold the
key `0`, with the pair as value, next to the default `Content-Type`. -/
theorem apiFetch_options_counterexample :
    getProp pairsPage.heap 0 "headers" = .ref 1
      ∧ pairHeaders pairsPage.heap 1 = [("Authorization", .string "Bearer t")]
      ∧ (apiFetch browser pairsPage "/items" (some 0) (.resolved 200 (.ok ""))).2.requests
          = [{ url := "https://app.example/items", init := some 4 }]
      ∧ getProp (apiFetch browser pairsPage "/items" (some 0) (.resolved 200 (.ok ""))).2.heap
          4 "headers" = .ref 3
      ∧ getProp (apiFetch browser pairsPage "/items" (some 0) (.resolved 200 (.ok ""))).2.heap
          3 "Authorization" = .undefined
      ∧ Heap.props (apiFetch browser pairsPage "/items" (some 0) (.resolved 200 (.ok ""))).2.heap
          3 = [("0", .ref 2), ("Content-Type", .string "application/json")] := by
  decide

end App
